import Mathlib

/-!
Verification development for the pipeline / deployment orchestration core
of the ai-workstation repository.

The embedding below translates, definition by definition, the relevant
TypeScript/JavaScript sources:

* `WorkflowOrchestrator` (deepseek_typescript_20250923_685eb8.ts, and the
  variant in src/unnamed/part_008): `executeCommand`, `executeStep`,
  `runFullPipeline`, `runCompleteWorkflow`, `checkPrerequisites`,
  `runSecurityScan`, `injectTemplate` (the step wrapper), `deployProject`.
* `DeploymentManager` (deepseek_javascript_20250923_126c7d.js):
  `executeCommand`, `deployToNetlify`, `deployToVercel`,
  `deployToGitHubPages`, `saveDeploymentHistory`, `getDeploymentHistory`.
* `TemplateManager` (deepseek_typescript_20250923_458741.ts):
  `validateVariables`, `injectTemplate`, `injectFile`,
  `installDependencies`, `replaceVariables`, `resolvePath`.

External effects (process spawning, the file system, JSON parsing, the
regular-expression URL search, clocks and random ids) are modelled as
oracle fields of environment structures; the control flow of the source
is translated literally over those oracles.
-/

/-- Outcome of one `spawn` call: either the launch itself fails (the
`error` event fires with a platform message) or the child runs and exits
with a code, having produced the given stdout/stderr streams. -/
inductive SpawnOutcome where
  | launchFailure (msg : String)
  | exited (code : Int) (stdout : String) (stderr : String)
deriving Repr, DecidableEq

/-- Result shape `{ success, output, error }` resolved by both
`WorkflowOrchestrator.executeCommand` and
`DeploymentManager.executeCommand`. -/
structure CmdResult where
  success : Bool
  output : String
  error : String
deriving Repr, DecidableEq

/-- `executeCommand` of both WorkflowOrchestrator and DeploymentManager:
the `close` handler resolves `{ success: code === 0, output: stdout.trim(),
error: stderr.trim() }`; the `error` handler resolves
`{ success: false, output: '', error: err.message }`.  The promise never
rejects. -/
def executeCommand : SpawnOutcome → CmdResult
  | .launchFailure msg => { success := false, output := "", error := msg }
  | .exited code stdout stderr =>
      { success := code == 0, output := stdout.trim, error := stderr.trim }

/-- One scheduled process execution as the environment resolves it: the
spawn outcome together with the wall-clock duration the run took
(`Date.now()` differences are environment data). -/
structure StepRun where
  outcome : SpawnOutcome
  duration : Nat
deriving Repr, DecidableEq

/-- Process oracle: what `spawn(command, args, { cwd, shell: true })`
does for each command/argument-list/working-directory triple. -/
def ProcOracle := String → List String → String → StepRun

/-- `PipelineResult` (called StepResult in the design document). -/
structure PipelineResult where
  step : String
  success : Bool
  output : String
  error : String
  duration : Nat
deriving Repr, DecidableEq

/-- `WorkflowOrchestrator.executeStep`: wraps `executeCommand`, attaching
the step name and the measured duration. -/
def executeStep (name : String) (run : StepRun) : PipelineResult :=
  let r := executeCommand run.outcome
  { step := name, success := r.success, output := r.output
    error := r.error, duration := run.duration }

/-- `PipelineStep` of the orchestrator source. -/
structure PipelineStep where
  name : String
  command : String
  args : List String
  workingDirectory : String
deriving Repr, DecidableEq

/-- The fixed step list built by `runFullPipeline`. -/
def fixedSteps (projectPath : String) : List PipelineStep :=
  [ { name := "Dependency Installation", command := "npm", args := ["install"],
      workingDirectory := projectPath }
  , { name := "Linting", command := "npm", args := ["run", "lint"],
      workingDirectory := projectPath }
  , { name := "Testing", command := "npm", args := ["test"],
      workingDirectory := projectPath }
  , { name := "Security Audit", command := "npm", args := ["audit"],
      workingDirectory := projectPath }
  , { name := "Build", command := "npm", args := ["run", "build"],
      workingDirectory := projectPath } ]

/-- The `for (const step of steps)` loop of `runFullPipeline`: push every
executed step's result; `break` when a step failed and it is not the
Security Audit step. -/
def runPipelineSteps (env : ProcOracle) : List PipelineStep → List PipelineResult
  | [] => []
  | s :: rest =>
      let r := executeStep s.name (env s.command s.args s.workingDirectory)
      if r.success = false ∧ s.name ≠ "Security Audit" then [r]
      else r :: runPipelineSteps env rest

/-- `WorkflowOrchestrator.runFullPipeline` (identical loop in both source
variants). -/
def runFullPipeline (env : ProcOracle) (projectPath : String) : List PipelineResult :=
  runPipelineSteps env (fixedSteps projectPath)

/-- C5. For every Process Runner invocation, a launch failure resolves
(never raises) with `succeeded=false`, empty output and the platform
error message; a non-zero exit resolves with `succeeded=false` and the
trimmed captured stderr as the error text. -/
theorem C5_process_runner_failure_shape :
    (∀ msg : String,
      executeCommand (.launchFailure msg) =
        { success := false, output := "", error := msg }) ∧
    (∀ (code : Int) (out err : String), code ≠ 0 →
      executeCommand (.exited code out err) =
        { success := false, output := out.trim, error := err.trim }) := by
  refine ⟨fun msg => rfl, fun code out err hc => ?_⟩
  simp [executeCommand, hc]

theorem C5_process_runner_failure_shape_witness :
    executeCommand (.exited 2 " hi " " boom ") =
      { success := false, output := " hi ".trim, error := " boom ".trim } :=
  C5_process_runner_failure_shape.2 2 " hi " " boom " (by decide)

/-- C4. The fixed pipeline runs install, lint, test, security-audit,
build in that order (the produced step names are always a prefix of that
canonical order), stops at the first blocking failure — in particular an
install failure yields exactly one result, named "Dependency
Installation" with `succeeded=false`, and lint is never attempted — while
a security-audit failure is advisory: with install, lint and test
succeeding, the pipeline still reaches the Build step (five results). -/
theorem C4_fixed_pipeline :
    (∀ (env : ProcOracle) (p : String), ∃ t,
      (runFullPipeline env p).map (fun r => r.step) ++ t =
        ["Dependency Installation", "Linting", "Testing", "Security Audit", "Build"]) ∧
    (∀ (env : ProcOracle) (p : String),
      (executeCommand (env "npm" ["install"] p).outcome).success = false →
      runFullPipeline env p =
        [executeStep "Dependency Installation" (env "npm" ["install"] p)] ∧
      (executeStep "Dependency Installation" (env "npm" ["install"] p)).step =
        "Dependency Installation" ∧
      (executeStep "Dependency Installation" (env "npm" ["install"] p)).success = false) ∧
    (∀ (env : ProcOracle) (p : String),
      (executeCommand (env "npm" ["install"] p).outcome).success = true →
      (executeCommand (env "npm" ["run", "lint"] p).outcome).success = true →
      (executeCommand (env "npm" ["test"] p).outcome).success = true →
      (executeCommand (env "npm" ["run", "build"] p).outcome).success = false →
      ((runFullPipeline env p).length = 5 ∧
        (runFullPipeline env p).map (fun r => r.step) =
          ["Dependency Installation", "Linting", "Testing", "Security Audit", "Build"])) := by
  refine ⟨?_, ?_, ?_⟩
  · intro env p
    simp only [runFullPipeline, fixedSteps, runPipelineSteps]
    split
    · exact ⟨["Linting", "Testing", "Security Audit", "Build"], by simp [executeStep]⟩
    · split
      · exact ⟨["Testing", "Security Audit", "Build"], by simp [executeStep]⟩
      · split
        · exact ⟨["Security Audit", "Build"], by simp [executeStep]⟩
        · split
          · next h => simp [executeStep] at h
          · split
            · exact ⟨[], by simp [executeStep]⟩
            · exact ⟨[], by simp [executeStep]⟩
  · intro env p h
    refine ⟨?_, rfl, by simp [executeStep, h]⟩
    simp only [runFullPipeline, fixedSteps, runPipelineSteps]
    rw [if_pos]
    exact ⟨by simp [executeStep, h], by decide⟩
  · intro env p h1 h2 h3 h5
    constructor
    · simp [runFullPipeline, fixedSteps, runPipelineSteps, executeStep, h1, h2, h3, h5]
    · simp [runFullPipeline, fixedSteps, runPipelineSteps, executeStep, h1, h2, h3, h5]

theorem C4_fixed_pipeline_witness :
    (runFullPipeline (fun _ _ _ => ⟨.exited 1 "" "err", 7⟩) "/proj" =
      [executeStep "Dependency Installation"
        ((fun (_ : String) (_ : List String) (_ : String) =>
          (⟨.exited 1 "" "err", 7⟩ : StepRun)) "npm" ["install"] "/proj")]) ∧
    (executeStep "Dependency Installation"
        ((fun (_ : String) (_ : List String) (_ : String) =>
          (⟨.exited 1 "" "err", 7⟩ : StepRun)) "npm" ["install"] "/proj")).success = false := by
  have h := (C4_fixed_pipeline.2.1 (fun _ _ _ => ⟨.exited 1 "" "err", 7⟩) "/proj") (by decide)
  exact ⟨h.1, h.2.2⟩

/-- `DeploymentResult` of DeploymentManager.  The early-return results of
the source omit `timestamp` (and `url`/`deploymentId`), so those fields
are optional here. -/
structure DeploymentResult where
  success : Bool
  url : Option String
  deploymentId : Option String
  log : String
  timestamp : Option Nat
deriving Repr, DecidableEq

/-- `DeploymentHistory` entry. -/
structure DeploymentHistory where
  id : String
  projectId : String
  target : String
  result : DeploymentResult
  timestamp : Nat
deriving Repr, DecidableEq

/-- `DeploymentManager.saveDeploymentHistory` acting on the in-memory
list: `unshift` the new entry, then `slice(0, 100)` when the length
exceeds 100.  (The subsequent whole-file rewrite is the persistence of
exactly this list.) -/
def recordHistory (e : DeploymentHistory) (hist : List DeploymentHistory) :
    List DeploymentHistory :=
  let hist1 := e :: hist
  if hist1.length > 100 then hist1.take 100 else hist1

/-- A sequence of `record` operations applied oldest first. -/
def recordAllHistory (es : List DeploymentHistory) (hist : List DeploymentHistory) :
    List DeploymentHistory :=
  es.foldl (fun h e => recordHistory e h) hist

/-- `DeploymentManager.getDeploymentHistory`: filter by projectId when
one is given, else return the stored list. -/
def getDeploymentHistory (hist : List DeploymentHistory) :
    Option String → List DeploymentHistory
  | some pid => hist.filter (fun item => item.projectId == pid)
  | none => hist

theorem recordHistory_eq_take (e : DeploymentHistory) (h : List DeploymentHistory) :
    recordHistory e h = (e :: h).take 100 := by
  by_cases h100 : (e :: h).length > 100
  · simp [recordHistory, h100]
  · have hle : (e :: h).length ≤ 100 := by omega
    simp [recordHistory, h100, List.take_of_length_le hle]

theorem take_append_take {α : Type} (n : Nat) (xs ys : List α) :
    (xs ++ ys.take n).take n = (xs ++ ys).take n := by
  rw [List.take_append_eq_append_take, List.take_append_eq_append_take,
    List.take_take]
  have hmin : min (n - xs.length) n = n - xs.length := by omega
  rw [hmin]

theorem recordAllHistory_eq (es : List DeploymentHistory) :
    ∀ h : List DeploymentHistory, h.length ≤ 100 →
      recordAllHistory es h = (es.reverse ++ h).take 100 := by
  induction es with
  | nil =>
      intro h hle
      simp [recordAllHistory, List.take_of_length_le hle]
  | cons e es ih =>
      intro h hle
      have hlen : (recordHistory e h).length ≤ 100 := by
        rw [recordHistory_eq_take, List.length_take]
        omega
      have step : recordAllHistory (e :: es) h =
          recordAllHistory es (recordHistory e h) := rfl
      rw [step, ih _ hlen, recordHistory_eq_take, take_append_take]
      simp [List.reverse_cons, List.append_assoc]

/-- Sample entry used for the 150-recordings scenario: the `i`-th
recorded attempt (counting from 1 as recorded order `i = 1 .. 150` maps
to index `i - 1`). -/
def sampleEntry (i : Nat) : DeploymentHistory :=
  { id := toString i, projectId := "proj", target := "netlify"
    result := { success := true, url := none, deploymentId := none
                log := "", timestamp := some i }
    timestamp := i }

/-- C2. The history store is a size-100 most-recent-first ring: `record`
prepends and evicts from the tail, so the store never exceeds 100 entries
after any record sequence (from any state within capacity), and after
recording 150 attempts into an empty store the unfiltered
`getDeploymentHistory` returns exactly 100 entries led by the 150th
recorded and ended by the 51st recorded. -/
theorem C2_history_ring :
    (∀ (e : DeploymentHistory) (h : List DeploymentHistory),
      recordHistory e h = (e :: h).take 100) ∧
    (∀ (es h : List DeploymentHistory), h.length ≤ 100 →
      (recordAllHistory es h).length ≤ 100) ∧
    (getDeploymentHistory
        (recordAllHistory ((List.range 150).map (fun i => sampleEntry (i + 1))) []) none =
      recordAllHistory ((List.range 150).map (fun i => sampleEntry (i + 1))) [] ∧
     (recordAllHistory ((List.range 150).map (fun i => sampleEntry (i + 1))) []).length = 100 ∧
     (recordAllHistory ((List.range 150).map (fun i => sampleEntry (i + 1))) []).head? =
        some (sampleEntry 150) ∧
     (recordAllHistory ((List.range 150).map (fun i => sampleEntry (i + 1))) []).getLast? =
        some (sampleEntry 51)) := by
  refine ⟨recordHistory_eq_take, ?_, ?_, ?_, ?_, ?_⟩
  · intro es h hle
    rw [recordAllHistory_eq es h hle]
    simp
  · rfl
  · rw [recordAllHistory_eq _ _ (by simp)]
    simp
  · rw [recordAllHistory_eq _ _ (by simp)]
    rfl
  · rw [recordAllHistory_eq _ _ (by simp)]
    rfl

theorem C2_history_ring_witness :
    ([] : List DeploymentHistory).length ≤ 100 ∧
      (recordAllHistory [sampleEntry 1] []).length ≤ 100 :=
  ⟨by decide, C2_history_ring.2.1 [sampleEntry 1] [] (by decide)⟩

/-- Environment of `DeploymentManager`: the process oracle, the
`process.cwd()` the global installs run in, the behaviour of
`JSON.parse` on the publish output (`none` models a parse throw; `some`
carries the `deploy_url`/`deploy_id` fields, either possibly absent),
the first URL-shaped substring the regular expression finds, the random
id `Math.random().toString(36).substr(2, 9)` and the clock. -/
structure DeployEnv where
  run : ProcOracle
  cwd : String
  parseDeploy : String → Option (Option String × Option String)
  firstUrl : String → Option String
  newId : String
  now : Nat

/-- The `netlify --version` probe of `deployToNetlify`. -/
def netlifyCliCheck (env : DeployEnv) (p : String) : CmdResult :=
  executeCommand (env.run "netlify" ["--version"] p).outcome

/-- `installNetlifyCLI`: `npm install -g netlify-cli` at `process.cwd()`. -/
def netlifyInstall (env : DeployEnv) : CmdResult :=
  executeCommand (env.run "npm" ["install", "-g", "netlify-cli"] env.cwd).outcome

/-- The result `deployToNetlify` builds once the CLI is available
(bootstrap passed or unnecessary): init (failure only logged), publish
with `--json`, structured parse with raw-URL fallback. -/
def netlifyResult (env : DeployEnv) (p : String) (sn : Option String) : DeploymentResult :=
  let log0 := ["Starting Netlify deployment for: " ++ p]
  let log1 := if (netlifyCliCheck env p).success then log0
    else log0 ++ ["Netlify CLI not found. Attempting to install..."]
  let initCheck := executeCommand (env.run "netlify" ["init", "--force"] p).outcome
  let log2 := if initCheck.success then log1
    else log1 ++ ["Netlify init failed: " ++ initCheck.error]
  let deployResult := executeCommand
    (env.run "netlify" (["deploy", "--prod", "--json"] ++
      (match sn with | some s => ["--site", s] | none => [])) p).outcome
  let log3 := log2 ++ [deployResult.output]
  let ud : Option String × Option String :=
    if deployResult.success then
      match env.parseDeploy deployResult.output with
      | some pr => pr
      | none => (env.firstUrl deployResult.output, none)
    else (none, none)
  { success := deployResult.success, url := ud.1, deploymentId := ud.2
    log := String.intercalate "\n" log3, timestamp := some env.now }

/-- `DeploymentManager.deployToNetlify`, threading the history list.
When the CLI probe fails and the one-shot global install also fails, the
source returns early WITHOUT calling `saveDeploymentHistory`; every
other resolution path records exactly one entry. -/
def deployToNetlify (env : DeployEnv) (p : String) (sn : Option String)
    (hist : List DeploymentHistory) : DeploymentResult × List DeploymentHistory :=
  if (netlifyCliCheck env p).success = false ∧ (netlifyInstall env).success = false then
    ({ success := false, url := none, deploymentId := none
       log := (String.intercalate "\n"
           ["Starting Netlify deployment for: " ++ p,
            "Netlify CLI not found. Attempting to install..."] ++ "\n") ++
         ("Failed to install Netlify CLI: " ++ (netlifyInstall env).error)
       timestamp := none }, hist)
  else
    (netlifyResult env p sn,
     recordHistory
       { id := env.newId, projectId := "unknown-project", target := "netlify"
         result := netlifyResult env p sn, timestamp := env.now } hist)

/-- The `vercel --version` probe of `deployToVercel`. -/
def vercelCliCheck (env : DeployEnv) (p : String) : CmdResult :=
  executeCommand (env.run "vercel" ["--version"] p).outcome

/-- `installVercelCLI`: `npm install -g vercel` at `process.cwd()`. -/
def vercelInstall (env : DeployEnv) : CmdResult :=
  executeCommand (env.run "npm" ["install", "-g", "vercel"] env.cwd).outcome

/-- The result `deployToVercel` builds once the CLI is available: no
init step, publish, raw-URL extraction (computed regardless of the exit
status, as in the source). -/
def vercelResult (env : DeployEnv) (p : String) (pn : Option String) : DeploymentResult :=
  let log0 := ["Starting Vercel deployment for: " ++ p]
  let log1 := if (vercelCliCheck env p).success then log0
    else log0 ++ ["Vercel CLI not found. Attempting to install..."]
  let deployResult := executeCommand
    (env.run "vercel" (["--prod", "--confirm"] ++
      (match pn with | some n => ["--name", n] | none => [])) p).outcome
  let log2 := log1 ++ [deployResult.output]
  { success := deployResult.success, url := env.firstUrl deployResult.output
    deploymentId := none, log := String.intercalate "\n" log2
    timestamp := some env.now }

/-- `DeploymentManager.deployToVercel`; same early-return shape as the
netlify flow on bootstrap failure. -/
def deployToVercel (env : DeployEnv) (p : String) (pn : Option String)
    (hist : List DeploymentHistory) : DeploymentResult × List DeploymentHistory :=
  if (vercelCliCheck env p).success = false ∧ (vercelInstall env).success = false then
    ({ success := false, url := none, deploymentId := none
       log := (String.intercalate "\n"
           ["Starting Vercel deployment for: " ++ p,
            "Vercel CLI not found. Attempting to install..."] ++ "\n") ++
         ("Failed to install Vercel CLI: " ++ (vercelInstall env).error)
       timestamp := none }, hist)
  else
    (vercelResult env p pn,
     recordHistory
       { id := env.newId, projectId := "unknown-project", target := "vercel"
         result := vercelResult env p pn, timestamp := env.now } hist)

/-- The `npm run build` step of `deployToGitHubPages`. -/
def ghBuild (env : DeployEnv) (p : String) : CmdResult :=
  executeCommand (env.run "npm" ["run", "build"] p).outcome

/-- The success result of `deployToGitHubPages`: URL synthesized from
`repoUrl.split('/')[3]` and `[4]` (a missing segment renders as the
string "undefined", as a JavaScript template literal does). -/
def ghPagesResult (env : DeployEnv) (p : String) (repoUrl : String) : DeploymentResult :=
  let parts := repoUrl.splitOn "/"
  { success := true
    url := some ("https://" ++ parts.getD 3 "undefined" ++ ".github.io/" ++
      parts.getD 4 "undefined")
    deploymentId := none
    log := String.intercalate "\n"
      ["Starting GitHub Pages deployment for: " ++ p, "Build completed successfully"]
    timestamp := some env.now }

/-- `DeploymentManager.deployToGitHubPages`: a build failure returns
early WITHOUT recording history; a successful build records one entry. -/
def deployToGitHubPages (env : DeployEnv) (p : String) (repoUrl : String)
    (hist : List DeploymentHistory) : DeploymentResult × List DeploymentHistory :=
  if (ghBuild env p).success = false then
    ({ success := false, url := none, deploymentId := none
       log := (String.intercalate "\n" ["Starting GitHub Pages deployment for: " ++ p]
           ++ "\n") ++ ("Build failed: " ++ (ghBuild env p).error)
       timestamp := none }, hist)
  else
    (ghPagesResult env p repoUrl,
     recordHistory
       { id := env.newId, projectId := "unknown-project", target := "github-pages"
         result := ghPagesResult env p repoUrl, timestamp := env.now } hist)

/-- Concrete environment for the C1 scenario: the `netlify --version`
probe exits 127 and the `npm install -g netlify-cli` bootstrap cannot
even be spawned. -/
def deployEnvFail : DeployEnv :=
  { run := fun cmd _ _ =>
      if cmd = "netlify" then ⟨.exited 127 "" "netlify: not found", 1⟩
      else ⟨.launchFailure "spawn npm ENOENT", 1⟩
    cwd := "/cwd", parseDeploy := fun _ => none, firstUrl := fun _ => none
    newId := "id0", now := 0 }

/-- C1 counterexample.  With the netlify CLI absent and its one-shot
install failing, `deployToNetlify` starting from an empty history
records NO entry (the claim demands exactly one), although it does
return `succeeded=false` with the install failure message in the log. -/
theorem C1_counterexample :
    ¬ ((deployToNetlify deployEnvFail "/p" none []).2.length = 1) ∧
    (deployToNetlify deployEnvFail "/p" none []).2 = [] ∧
    (deployToNetlify deployEnvFail "/p" none []).1.success = false ∧
    (deployToNetlify deployEnvFail "/p" none []).1.log =
      "Starting Netlify deployment for: /p\n" ++
      "Netlify CLI not found. Attempting to install...\n" ++
      "Failed to install Netlify CLI: spawn npm ENOENT" := by
  refine ⟨by decide, rfl, rfl, ?_⟩
  decide

/-- C1 amended.  Every flow call that reaches its publish stage
(netlify/vercel: CLI probe or bootstrap succeeded; github-pages: build
succeeded) appends exactly one history entry carrying its result; the
early-return failure paths — netlify/vercel CLI-install failure,
github-pages build failure — return `succeeded=false` with a log
containing the failure message but append NO history entry. -/
theorem C1_deployment_history_recording :
    ∀ (env : DeployEnv) (p : String) (sn pn : Option String)
      (repoUrl : String) (hist : List DeploymentHistory),
    ((netlifyCliCheck env p).success = false → (netlifyInstall env).success = false →
      (deployToNetlify env p sn hist).2 = hist ∧
      (deployToNetlify env p sn hist).1.success = false ∧
      ∃ pre, (deployToNetlify env p sn hist).1.log =
        pre ++ ("Failed to install Netlify CLI: " ++ (netlifyInstall env).error)) ∧
    (¬ ((netlifyCliCheck env p).success = false ∧ (netlifyInstall env).success = false) →
      ∃ e, (deployToNetlify env p sn hist).2 = recordHistory e hist ∧
        e.result = (deployToNetlify env p sn hist).1 ∧ e.target = "netlify") ∧
    ((vercelCliCheck env p).success = false → (vercelInstall env).success = false →
      (deployToVercel env p pn hist).2 = hist ∧
      (deployToVercel env p pn hist).1.success = false ∧
      ∃ pre, (deployToVercel env p pn hist).1.log =
        pre ++ ("Failed to install Vercel CLI: " ++ (vercelInstall env).error)) ∧
    (¬ ((vercelCliCheck env p).success = false ∧ (vercelInstall env).success = false) →
      ∃ e, (deployToVercel env p pn hist).2 = recordHistory e hist ∧
        e.result = (deployToVercel env p pn hist).1 ∧ e.target = "vercel") ∧
    ((ghBuild env p).success = false →
      (deployToGitHubPages env p repoUrl hist).2 = hist ∧
      (deployToGitHubPages env p repoUrl hist).1.success = false ∧
      ∃ pre, (deployToGitHubPages env p repoUrl hist).1.log =
        pre ++ ("Build failed: " ++ (ghBuild env p).error)) ∧
    ((ghBuild env p).success = true →
      ∃ e, (deployToGitHubPages env p repoUrl hist).2 = recordHistory e hist ∧
        e.result = (deployToGitHubPages env p repoUrl hist).1 ∧
        e.target = "github-pages") := by
  intro env p sn pn repoUrl hist
  refine ⟨?_, ?_, ?_, ?_, ?_, ?_⟩
  · intro h1 h2
    unfold deployToNetlify
    rw [if_pos ⟨h1, h2⟩]
    exact ⟨rfl, rfl, _, by rw [String.append_assoc]⟩
  · intro hne
    unfold deployToNetlify
    rw [if_neg hne]
    exact ⟨_, rfl, rfl, rfl⟩
  · intro h1 h2
    unfold deployToVercel
    rw [if_pos ⟨h1, h2⟩]
    exact ⟨rfl, rfl, _, by rw [String.append_assoc]⟩
  · intro hne
    unfold deployToVercel
    rw [if_neg hne]
    exact ⟨_, rfl, rfl, rfl⟩
  · intro h1
    unfold deployToGitHubPages
    rw [if_pos h1]
    exact ⟨rfl, rfl, _, by rw [String.append_assoc]⟩
  · intro h1
    unfold deployToGitHubPages
    rw [if_neg (by simp [h1])]
    exact ⟨_, rfl, rfl, rfl⟩

theorem C1_deployment_history_recording_witness :
    (deployToNetlify deployEnvFail "/q" none []).2 = [] ∧
    (deployToNetlify deployEnvFail "/q" none []).1.success = false ∧
    ∃ pre, (deployToNetlify deployEnvFail "/q" none []).1.log =
      pre ++ ("Failed to install Netlify CLI: " ++ (netlifyInstall deployEnvFail).error) :=
  (C1_deployment_history_recording deployEnvFail "/q" none none "" []).1
    (by decide) (by decide)

/-- JavaScript values as stored in the `variables` record passed to
`injectTemplate`; what matters to the source is truthiness, string
equality against `options`, and stringification. -/
inductive JValue where
  | str (s : String)
  | num (n : Int)
  | boolean (b : Bool)
  | null
deriving Repr, DecidableEq

/-- JavaScript truthiness of a value. -/
def JValue.truthy : JValue → Bool
  | .str s => !(s == "")
  | .num n => !(n == 0)
  | .boolean b => b
  | .null => false

/-- Template-literal stringification. -/
def jstr : JValue → String
  | .str s => s
  | .num n => toString n
  | .boolean b => if b then "true" else "false"
  | .null => "null"

/-- The `variables` record: key/value pairs. -/
def VarMap := List (String × JValue)

/-- `variables[name]`: `none` when the property is absent. -/
def vlookup (vars : VarMap) (k : String) : Option JValue :=
  (vars.find? (fun pr => pr.1 == k)).map (fun pr => pr.2)

/-- Truthiness of a property access (absent reads as `undefined`,
which is falsy). -/
def jtruthy : Option JValue → Bool
  | none => false
  | some v => v.truthy

/-- `TemplateVariable.type`. -/
inductive VarType where
  | string
  | number
  | boolean
  | select
deriving Repr, DecidableEq, BEq

/-- `TemplateVariable` of TemplateManager. -/
structure TemplateVariable where
  name : String
  description : String
  vtype : VarType
  required : Bool
  defaultValue : Option JValue
  options : Option (List String)
deriving Repr, DecidableEq

/-- `TemplateFile.type`. -/
inductive FileKind where
  | file
  | directory
deriving Repr, DecidableEq

/-- `TemplateFile` of TemplateManager. -/
structure TemplateFile where
  source : String
  target : String
  ftype : FileKind
  varRefs : List String
deriving Repr, DecidableEq

/-- `Template` of TemplateManager (the `type`/`category` enums are kept
as their string values; they play no role in injection). -/
structure Template where
  id : String
  name : String
  description : String
  ttype : String
  category : String
  files : List TemplateFile
  tvars : List TemplateVariable
  dependencies : List String
  installScripts : Option (List String)
  tags : List String
deriving Repr, DecidableEq

/-- The message `validateVariables` pushes for a missing required
variable. -/
def missingMsg (n : String) : String := "Required variable missing: " ++ n

/-- The message `validateVariables` pushes for a select variable whose
value is not among its options. -/
def invalidMsg (v : TemplateVariable) : String :=
  "Invalid value for " ++ v.name ++ ". Must be one of: " ++
    String.intercalate ", " (v.options.getD [])

/-- The guard of the second `validateVariables` check:
`variables[name] && type === 'select' && options` followed by the failed
`options.includes(value)` membership (a non-string value is never a
member of a string array). -/
def selectViolation (vars : VarMap) (v : TemplateVariable) : Bool :=
  jtruthy (vlookup vars v.name) && v.vtype == .select && v.options.isSome &&
    !(match vlookup vars v.name with
      | some (.str s) => (v.options.getD []).contains s
      | _ => false)

/-- The errors one loop iteration of `validateVariables` pushes for one
declared variable, in push order. -/
def perVarErrors (vars : VarMap) (v : TemplateVariable) : List String :=
  (if v.required && !jtruthy (vlookup vars v.name) then [missingMsg v.name] else []) ++
  (if selectViolation vars v then [invalidMsg v] else [])

/-- The full error list the `validateVariables` loop accumulates, in
declaration order. -/
def collectErrors (vars : VarMap) : List TemplateVariable → List String
  | [] => []
  | v :: rest => perVarErrors vars v ++ collectErrors vars rest

/-- `TemplateManager.validateVariables`. -/
def validateVariables (t : Template) (vars : VarMap) : Bool × List String :=
  let errors := collectErrors vars t.tvars
  (errors.isEmpty, errors)

/-- `TemplateManager.replaceVariables`: literal `\x7b\x7bname\x7d\x7d`
replace-all per supplied variable. -/
def replaceVariables (content : String) (vars : VarMap) : String :=
  vars.foldl
    (fun acc kv => acc.replace ("\x7b\x7b" ++ kv.1 ++ "\x7d\x7d") (jstr kv.2)) content

/-- `TemplateManager.resolvePath` (same transform applied to paths). -/
def resolvePath (p : String) (vars : VarMap) : String :=
  vars.foldl
    (fun acc kv => acc.replace ("\x7b\x7b" ++ kv.1 ++ "\x7d\x7d") (jstr kv.2)) p

/-- File-system oracle for TemplateManager: existence probe, file
contents, and the `dependencies` map of a `package.json` (`none` when
the file does not exist). -/
structure FSModel where
  pathExists : String → Bool
  readFile : String → String
  readPackageDeps : String → Option (List (String × String))

/-- File-system mutations `injectTemplate` performs, in order. -/
inductive FSEffect where
  | ensureDir (p : String)
  | writeFile (p : String) (content : String)
  | writePackageJson (p : String) (deps : List (String × String))
deriving Repr, DecidableEq

/-- `path.join` for the paths the source builds. -/
def joinPath (a b : String) : String := a ++ "/" ++ b

/-- `path.dirname`. -/
def dirname (p : String) : String :=
  String.intercalate "/" ((p.splitOn "/").dropLast)

/-- The template bundle root (`this.templatesPath`). -/
def templatesPath : String := "templates"

/-- Outcome of `TemplateManager.injectFile` for one declared file,
together with the file-system effects it performed. -/
structure FileInjection where
  success : Bool
  path : Option String
  effects : List FSEffect
deriving Repr, DecidableEq

/-- `TemplateManager.injectFile`: directories are ensured; files are
read from the template bundle, substituted, and written under an
ensured parent directory; a missing source file is a per-file failure
with no effect. -/
def injectFile (fs : FSModel) (templateId : String) (f : TemplateFile)
    (targetPath : String) (vars : VarMap) : FileInjection :=
  let sourcePath := joinPath (joinPath templatesPath templateId) f.source
  let finalTargetPath := resolvePath (joinPath targetPath f.target) vars
  match f.ftype with
  | .directory => ⟨true, some finalTargetPath, [.ensureDir finalTargetPath]⟩
  | .file =>
      if fs.pathExists sourcePath then
        ⟨true, some finalTargetPath,
          [.ensureDir (dirname finalTargetPath),
           .writeFile finalTargetPath (replaceVariables (fs.readFile sourcePath) vars)]⟩
      else ⟨false, none, []⟩

/-- `packageJson.dependencies[k]` lookup. -/
def alookup (m : List (String × String)) (k : String) : Option String :=
  (m.find? (fun pr => pr.1 == k)).map (fun pr => pr.2)

/-- JavaScript object property assignment (update in place, append when
new). -/
def aset : List (String × String) → String → String → List (String × String)
  | [], k, v => [(k, v)]
  | (k1, v1) :: rest, k, v =>
      if k1 == k then (k, v) :: rest else (k1, v1) :: aset rest k v

/-- Truthiness of `packageJson.dependencies[dep]` (absent or the empty
string are falsy). -/
def truthyVer : Option String → Bool
  | none => false
  | some s => !(s == "")

/-- The `for (const dep of dependencies)` loop of `installDependencies`:
a dep whose current entry is falsy is set to `'latest'` and reported. -/
def mergeDeps : List (String × String) → List String →
    List (String × String) × List String
  | m, [] => (m, [])
  | m, d :: ds =>
      if truthyVer (alookup m d) then mergeDeps m ds
      else
        let pr := mergeDeps (aset m d "latest") ds
        (pr.1, d :: pr.2)

/-- `TemplateManager.installDependencies`: returns the reported
installed names, the accumulated errors, and the file-system effects
(the single whole-manifest rewrite when `package.json` exists). -/
def installDependencies (fs : FSModel) (targetPath : String)
    (dependencies : List String) : List String × List String × List FSEffect :=
  match fs.readPackageDeps (joinPath targetPath "package.json") with
  | none => ([], [], [])
  | some m =>
      let pr := mergeDeps m dependencies
      (pr.2, [], [.writePackageJson (joinPath targetPath "package.json") pr.1])

/-- `InjectionResult` of TemplateManager. -/
structure InjectionResult where
  success : Bool
  injectedFiles : List String
  installedDependencies : List String
  errors : List String
deriving Repr, DecidableEq

/-- The in-memory template catalog (`this.templates`). -/
def Catalog := String → Option Template

/-- `TemplateManager.injectTemplate`: unknown id is an immediate single
error; a failed variable validation aborts before any file effect; then
each file is injected best-effort, dependencies merged when declared,
and install scripts only logged (no effect). -/
def injectTemplate (catalog : Catalog) (fs : FSModel)
    (templateId targetPath : String) (vars : VarMap) :
    InjectionResult × List FSEffect :=
  match catalog templateId with
  | none =>
      ({ success := false, injectedFiles := [], installedDependencies := []
         errors := ["Template not found: " ++ templateId] }, [])
  | some t =>
      let val := validateVariables t vars
      if val.1 = false then
        ({ success := false, injectedFiles := [], installedDependencies := []
           errors := val.2 }, [])
      else
        let fileResults := t.files.map
          (fun f => (f, injectFile fs templateId f targetPath vars))
        let injected := fileResults.filterMap
          (fun pr => if pr.2.success then pr.2.path else none)
        let ferrs := fileResults.filterMap
          (fun pr => if pr.2.success then none
            else some ("Failed to inject file: " ++ pr.1.source))
        let fileEffects := fileResults.foldr (fun pr acc => pr.2.effects ++ acc) []
        let dep := if t.dependencies.length > 0 then
            installDependencies fs targetPath t.dependencies
          else ([], [], [])
        let errors := ferrs ++ dep.2.1
        ({ success := errors.isEmpty, injectedFiles := injected
           installedDependencies := dep.1, errors := errors },
         fileEffects ++ dep.2.2)

theorem collectErrors_nil_of (vars : VarMap) :
    ∀ l : List TemplateVariable, (∀ w ∈ l, perVarErrors vars w = []) →
      collectErrors vars l = [] := by
  intro l
  induction l with
  | nil => intro _; rfl
  | cons a l ih =>
      intro h
      simp only [collectErrors, h a (by simp), List.nil_append]
      exact ih (fun w hw => h w (by simp [hw]))

theorem collectErrors_single (vars : VarMap) :
    ∀ (l : List TemplateVariable) (v : TemplateVariable),
      l.count v = 1 → (∀ w ∈ l, w ≠ v → perVarErrors vars w = []) →
      collectErrors vars l = perVarErrors vars v := by
  intro l
  induction l with
  | nil => intro v hc; simp at hc
  | cons a l ih =>
      intro v hc hothers
      by_cases hav : a = v
      · subst hav
        have hc0 : l.count a = 0 := by
          rw [List.count_cons_self] at hc
          omega
        have hnotin : a ∉ l := List.count_eq_zero.mp hc0
        have hnil : collectErrors vars l = [] := by
          refine collectErrors_nil_of vars l (fun w hw => ?_)
          refine hothers w (by simp [hw]) (fun hwv => ?_)
          exact hnotin (hwv ▸ hw)
        simp [collectErrors, hnil]
      · have ha : perVarErrors vars a = [] :=
          hothers a (by simp) hav
        have hc' : l.count v = 1 := by
          rwa [List.count_cons_of_ne (fun h => hav h.symm)] at hc
        simp only [collectErrors, ha, List.nil_append]
        exact ih v hc' (fun w hw => hothers w (by simp [hw]))

theorem collectErrors_mem (vars : VarMap) {v : TemplateVariable} {e : String} :
    ∀ l : List TemplateVariable, v ∈ l → e ∈ perVarErrors vars v →
      e ∈ collectErrors vars l := by
  intro l
  induction l with
  | nil => intro h; cases h
  | cons a l ih =>
      intro hv he
      rcases List.mem_cons.mp hv with h | h
      · subst h
        simp [collectErrors, he]
      · simp [collectErrors, ih h he]

/-- CLI-absent file system for the C8 witness scenario (nothing exists,
no package.json). -/
def fsEmpty : FSModel :=
  { pathExists := fun _ => false, readFile := fun _ => ""
    readPackageDeps := fun _ => none }

/-- Template with one required string variable, used as the C8 witness. -/
def tmplC8 : Template :=
  { id := "auth-form", name := "Auth form", description := ""
    ttype := "component", category := "ui", files := []
    tvars := [{ name := "appName", description := "", vtype := .string
                required := true, defaultValue := none, options := none }]
    dependencies := [], installScripts := none, tags := [] }

/-- Catalog holding only `tmplC8`. -/
def catalogC8 : Catalog := fun tid => if tid = "auth-form" then some tmplC8 else none

/-- C8. `injectTemplate` validates before any effect: when the only
validation violation is one required variable being absent, the result
carries exactly that one error message naming the variable, has no
injected paths, and no file-system effect happened; a select-typed
variable whose value is not among its options likewise aborts the whole
injection with its error recorded; and a template declaring no
variables never fails validation, whatever map is supplied. -/
theorem C8_validation_gate :
    (∀ (catalog : Catalog) (fs : FSModel) (tid target : String) (vars : VarMap)
       (t : Template) (v : TemplateVariable),
      catalog tid = some t →
      t.tvars.count v = 1 →
      (∀ w ∈ t.tvars, w ≠ v → perVarErrors vars w = []) →
      v.required = true →
      jtruthy (vlookup vars v.name) = false →
      injectTemplate catalog fs tid target vars =
        ({ success := false, injectedFiles := [], installedDependencies := []
           errors := [missingMsg v.name] }, [])) ∧
    (∀ (catalog : Catalog) (fs : FSModel) (tid target : String) (vars : VarMap)
       (t : Template) (v : TemplateVariable),
      catalog tid = some t →
      v ∈ t.tvars →
      selectViolation vars v = true →
      (injectTemplate catalog fs tid target vars).1.success = false ∧
      invalidMsg v ∈ (injectTemplate catalog fs tid target vars).1.errors ∧
      (injectTemplate catalog fs tid target vars).1.injectedFiles = [] ∧
      (injectTemplate catalog fs tid target vars).2 = []) ∧
    (∀ (t : Template) (vars : VarMap), t.tvars = [] →
      validateVariables t vars = (true, [])) := by
  refine ⟨?_, ?_, ?_⟩
  · intro catalog fs tid target vars t v hcat hcount hothers hreq htr
    have hsel : selectViolation vars v = false := by
      simp [selectViolation, htr]
    have hpv : perVarErrors vars v = [missingMsg v.name] := by
      simp [perVarErrors, hreq, htr, hsel]
    have hcoll : collectErrors vars t.tvars = [missingMsg v.name] := by
      rw [collectErrors_single vars t.tvars v hcount hothers, hpv]
    simp [injectTemplate, hcat, validateVariables, hcoll]
  · intro catalog fs tid target vars t v hcat hv hviol
    have hmem : invalidMsg v ∈ perVarErrors vars v := by
      simp [perVarErrors, hviol]
    have hcm : invalidMsg v ∈ collectErrors vars t.tvars :=
      collectErrors_mem vars t.tvars hv hmem
    have hne : collectErrors vars t.tvars ≠ [] := List.ne_nil_of_mem hcm
    have hEmp : (collectErrors vars t.tvars).isEmpty = false := by
      cases h : collectErrors vars t.tvars with
      | nil => exact absurd h hne
      | cons a l => rfl
    refine ⟨?_, ?_, ?_, ?_⟩ <;>
      simp [injectTemplate, hcat, validateVariables, hEmp, hcm]
  · intro t vars hvars
    simp [validateVariables, hvars, collectErrors]

theorem C8_validation_gate_witness :
    injectTemplate catalogC8 fsEmpty "auth-form" "/proj" [] =
      ({ success := false, injectedFiles := [], installedDependencies := []
         errors := [missingMsg "appName"] }, []) := by
  refine C8_validation_gate.1 catalogC8 fsEmpty "auth-form" "/proj" []
    tmplC8 { name := "appName", description := "", vtype := .string
             required := true, defaultValue := none, options := none }
    (by decide) (by decide) (by decide) rfl rfl

theorem alookup_cons_pos (k1 v1 k : String) (t : List (String × String))
    (h : (k1 == k) = true) : alookup ((k1, v1) :: t) k = some v1 := by
  simp [alookup, List.find?, h]

theorem alookup_cons_neg (k1 v1 k : String) (t : List (String × String))
    (h : (k1 == k) = false) : alookup ((k1, v1) :: t) k = alookup t k := by
  simp [alookup, List.find?, h]

theorem aset_cons_pos (k1 v1 k v : String) (rest : List (String × String))
    (h : (k1 == k) = true) : aset ((k1, v1) :: rest) k v = (k, v) :: rest := by
  simp [aset, h]

theorem aset_cons_neg (k1 v1 k v : String) (rest : List (String × String))
    (h : (k1 == k) = false) :
    aset ((k1, v1) :: rest) k v = (k1, v1) :: aset rest k v := by
  simp [aset, h]

theorem alookup_aset_self (k v : String) :
    ∀ m : List (String × String), alookup (aset m k v) k = some v := by
  intro m
  induction m with
  | nil => exact alookup_cons_pos k v k [] (by simp)
  | cons p rest ih =>
      cases p with
      | mk k1 v1 =>
          by_cases h : (k1 == k) = true
          · rw [aset_cons_pos k1 v1 k v rest h]
            exact alookup_cons_pos k v k rest (by simp)
          · have hb : (k1 == k) = false := by
              cases hx : (k1 == k)
              · rfl
              · exact absurd hx h
            rw [aset_cons_neg k1 v1 k v rest hb, alookup_cons_neg k1 v1 k _ hb]
            exact ih

theorem alookup_aset_ne (k v k' : String) (hne : k' ≠ k) :
    ∀ m : List (String × String), alookup (aset m k v) k' = alookup m k' := by
  intro m
  have hkk : (k == k') = false := by simp [Ne.symm hne]
  induction m with
  | nil =>
      show alookup [(k, v)] k' = alookup [] k'
      rw [alookup_cons_neg k v k' [] hkk]
  | cons p rest ih =>
      cases p with
      | mk k1 v1 =>
          by_cases h : (k1 == k) = true
          · have hk1 : k1 = k := by simpa using h
            subst hk1
            rw [aset_cons_pos k1 v1 k1 v rest (by simp)]
            have hb : (k1 == k') = false := by simp [Ne.symm hne]
            rw [alookup_cons_neg k1 v k' rest hb, alookup_cons_neg k1 v1 k' rest hb]
          · have hb : (k1 == k) = false := by
              cases hx : (k1 == k)
              · rfl
              · exact absurd hx h
            rw [aset_cons_neg k1 v1 k v rest hb]
            by_cases h2 : (k1 == k') = true
            · rw [alookup_cons_pos k1 v1 k' _ h2, alookup_cons_pos k1 v1 k' rest h2]
            · have hb2 : (k1 == k') = false := by
                cases hx : (k1 == k')
                · rfl
                · exact absurd hx h2
              rw [alookup_cons_neg k1 v1 k' _ hb2, alookup_cons_neg k1 v1 k' rest hb2]
              exact ih

theorem mergeDeps_preserves (k v : String) (hv : v ≠ "") :
    ∀ (deps : List String) (m : List (String × String)),
      alookup m k = some v → alookup (mergeDeps m deps).1 k = some v := by
  intro deps
  induction deps with
  | nil => intro m hm; simpa [mergeDeps] using hm
  | cons d ds ih =>
      intro m hm
      by_cases hd : truthyVer (alookup m d) = true
      · simpa [mergeDeps, hd] using ih m hm
      · have hkd : k ≠ d := by
          intro hkd
          rw [← hkd] at hd
          rw [hm] at hd
          simp [truthyVer, hv] at hd
        have hm' : alookup (aset m d "latest") k = some v := by
          rw [alookup_aset_ne d "latest" k hkd m]
          exact hm
        simpa [mergeDeps, hd] using ih (aset m d "latest") hm'

theorem mergeDeps_installed_iff (k : String) :
    ∀ (deps : List String) (m : List (String × String)),
      k ∈ (mergeDeps m deps).2 ↔
        (k ∈ deps ∧ truthyVer (alookup m k) = false) := by
  intro deps
  induction deps with
  | nil => intro m; simp [mergeDeps]
  | cons d ds ih =>
      intro m
      by_cases hd : truthyVer (alookup m d) = true
      · rw [show (mergeDeps m (d :: ds)).2 = (mergeDeps m ds).2 by
          simp [mergeDeps, hd]]
        rw [ih m]
        constructor
        · rintro ⟨hk, ht⟩
          exact ⟨List.mem_cons_of_mem d hk, ht⟩
        · rintro ⟨hk, ht⟩
          rcases List.mem_cons.mp hk with h | h
          · subst h; rw [hd] at ht; cases ht
          · exact ⟨h, ht⟩
      · have hdf : truthyVer (alookup m d) = false := by
          cases h : truthyVer (alookup m d)
          · rfl
          · exact absurd h hd
        rw [show (mergeDeps m (d :: ds)).2 =
            d :: (mergeDeps (aset m d "latest") ds).2 by simp [mergeDeps, hd]]
        by_cases hkd : k = d
        · subst hkd
          simp [hdf]
        · have hlk : alookup (aset m d "latest") k = alookup m k :=
            alookup_aset_ne d "latest" k hkd m
          rw [List.mem_cons]
          constructor
          · rintro (h | h)
            · exact absurd h hkd
            · have := (ih (aset m d "latest")).mp h
              rw [hlk] at this
              exact ⟨List.mem_cons_of_mem d this.1, this.2⟩
          · rintro ⟨hk, ht⟩
            rcases List.mem_cons.mp hk with h | h
            · exact absurd h hkd
            · refine Or.inr ((ih (aset m d "latest")).mpr ⟨h, ?_⟩)
              rw [hlk]
              exact ht

theorem mergeDeps_installed_latest (k : String) :
    ∀ (deps : List String) (m : List (String × String)),
      k ∈ (mergeDeps m deps).2 →
      alookup (mergeDeps m deps).1 k = some "latest" := by
  intro deps
  induction deps with
  | nil => intro m h; simp [mergeDeps] at h
  | cons d ds ih =>
      intro m hk
      by_cases hd : truthyVer (alookup m d) = true
      · rw [show mergeDeps m (d :: ds) = mergeDeps m ds by simp [mergeDeps, hd]] at hk ⊢
        exact ih m hk
      · rw [show (mergeDeps m (d :: ds)).2 =
            d :: (mergeDeps (aset m d "latest") ds).2 by simp [mergeDeps, hd]] at hk
        rw [show (mergeDeps m (d :: ds)).1 =
            (mergeDeps (aset m d "latest") ds).1 by simp [mergeDeps, hd]]
        rcases List.mem_cons.mp hk with h | h
        · subst h
          exact mergeDeps_preserves k "latest" (by decide) ds (aset m k "latest")
            (alookup_aset_self k "latest" m)
        · exact ih (aset m d "latest") h

/-- File system for the C9 counterexample: a `package.json` whose
`dependencies` map pins `foo` to the empty string. -/
def fsC9 : FSModel :=
  { pathExists := fun _ => true, readFile := fun _ => ""
    readPackageDeps := fun _ => some [("foo", "")] }

/-- C9 counterexample.  The manifest already contains the name `foo`
(pinned to `""`), yet the merge overwrites its value with `latest` and
reports `foo` as installed: the JavaScript truthiness check
`!packageJson.dependencies[dep]` treats an existing empty-string version
as absent, contradicting "never changing the value of any name already
present" and "exactly the names that were newly added". -/
theorem C9_counterexample :
    alookup [("foo", "")] "foo" = some "" ∧
    installDependencies fsC9 "/t" ["foo"] =
      (["foo"], [],
        [.writePackageJson (joinPath "/t" "package.json") [("foo", "latest")]]) ∧
    ("latest" : String) ≠ "" := by
  refine ⟨rfl, rfl, by decide⟩

/-- C9 amended.  The merge adds `latest` entries exactly for the
requested names whose existing manifest entry is absent or falsy (the
empty string); a name pinned to any non-empty version is never changed;
the reported installed names are exactly the names so added, and each
of them ends up mapped to `latest`. -/
theorem C9_dependency_merge :
    (∀ (m : List (String × String)) (deps : List String) (k v : String),
      alookup m k = some v → v ≠ "" →
      alookup (mergeDeps m deps).1 k = some v) ∧
    (∀ (m : List (String × String)) (deps : List String) (k : String),
      k ∈ (mergeDeps m deps).2 ↔
        (k ∈ deps ∧ truthyVer (alookup m k) = false)) ∧
    (∀ (m : List (String × String)) (deps : List String) (k : String),
      k ∈ (mergeDeps m deps).2 →
      alookup (mergeDeps m deps).1 k = some "latest") ∧
    (∀ (fs : FSModel) (target : String) (deps : List String)
       (m : List (String × String)),
      fs.readPackageDeps (joinPath target "package.json") = some m →
      (installDependencies fs target deps).1 = (mergeDeps m deps).2 ∧
      (installDependencies fs target deps).2.2 =
        [.writePackageJson (joinPath target "package.json") (mergeDeps m deps).1]) := by
  refine ⟨?_, ?_, ?_, ?_⟩
  · intro m deps k v hm hv
    exact mergeDeps_preserves k v hv deps m hm
  · intro m deps k
    exact mergeDeps_installed_iff k deps m
  · intro m deps k hk
    exact mergeDeps_installed_latest k deps m hk
  · intro fs target deps m hread
    simp [installDependencies, hread]

theorem C9_dependency_merge_witness :
    alookup (mergeDeps [("react", "18.2.0")] ["react", "zustand"]).1 "react" =
      some "18.2.0" :=
  C9_dependency_merge.1 [("react", "18.2.0")] ["react", "zustand"]
    "react" "18.2.0" rfl (by decide)

/-- `WorkflowConfig.steps` flags. -/
structure StepsFlags where
  install : Bool
  lint : Bool
  test : Bool
  security : Bool
  build : Bool
  deploy : Bool
deriving Repr, DecidableEq

/-- `WorkflowConfig.deployment.target`: `'netlify' | 'vercel' |
'github-pages' | 'none'`. -/
inductive DeployTarget where
  | netlify
  | vercel
  | githubPages
  | noTarget
deriving Repr, DecidableEq

/-- The string value of a target (as it renders in the unsupported-target
error message). -/
def targetName : DeployTarget → String
  | .netlify => "netlify"
  | .vercel => "vercel"
  | .githubPages => "github-pages"
  | .noTarget => "none"

/-- `WorkflowConfig.deployment`. -/
structure DeploymentCfg where
  target : DeployTarget
  autoDeploy : Bool
  siteName : Option String
deriving Repr, DecidableEq

/-- `WorkflowConfig.features`. -/
structure FeaturesCfg where
  injectTemplates : List String
  runScripts : List String
deriving Repr, DecidableEq

/-- `WorkflowConfig`. -/
structure WorkflowConfig where
  steps : StepsFlags
  deployment : DeploymentCfg
  features : FeaturesCfg
deriving Repr, DecidableEq

/-- `SecurityScanResult.summary`. -/
structure ScanSummary where
  total : Nat
  critical : Nat
  high : Nat
  medium : Nat
  low : Nat
deriving Repr, DecidableEq

/-- The scan collaborator's result shape (SecurityScanner, in
src/unnamed/part_007: `passed` is computed there as zero critical and
zero high findings). -/
structure SecurityScanResult where
  passed : Bool
  summary : ScanSummary
deriving Repr, DecidableEq

/-- `WorkflowResult` of the orchestrator. -/
structure WorkflowResult where
  success : Bool
  steps : List PipelineResult
  deployment : Option DeploymentResult
  duration : Nat
  timestamp : Nat
deriving Repr, DecidableEq

/-- Environment of `runCompleteWorkflow`: the process oracle and
`process.cwd()`, the project path, the scan collaborator's outcome
(`Except.error` models a thrown scan), the template catalog and file
system used by the injection step, duration oracles for the
non-process steps, and the deployment dispatcher's outcome per target
(the DeploymentManager flows are embedded separately above; they never
touch the orchestrator's step list). -/
structure WorkflowEnv where
  run : ProcOracle
  cwd : String
  projectPath : String
  scan : Except String SecurityScanResult
  scanDur : Nat
  catalog : Catalog
  fs : FSModel
  injectDur : String → Nat
  catchDur : Nat
  totalDur : Nat
  startedAt : Nat
  deployOutcome : DeployTarget → DeploymentResult

/-- `checkPrerequisites`: the three concurrent version probes, awaited
jointly. -/
structure PrereqResult where
  nodejs : Bool
  npm : Bool
  git : Bool
deriving Repr, DecidableEq

/-- `WorkflowOrchestrator.checkPrerequisites`. -/
def checkPrerequisites (env : WorkflowEnv) : PrereqResult :=
  { nodejs := (executeCommand (env.run "node" ["--version"] env.cwd).outcome).success
    npm := (executeCommand (env.run "npm" ["--version"] env.cwd).outcome).success
    git := (executeCommand (env.run "git" ["--version"] env.cwd).outcome).success }

/-- The install step as `runCompleteWorkflow` executes it. -/
def installStepOf (env : WorkflowEnv) : PipelineResult :=
  executeStep "Dependency Installation" (env.run "npm" ["install"] env.projectPath)

/-- The lint step as `runCompleteWorkflow` executes it. -/
def lintStepOf (env : WorkflowEnv) : PipelineResult :=
  executeStep "Linting" (env.run "npm" ["run", "lint"] env.projectPath)

/-- The test step as `runCompleteWorkflow` executes it. -/
def testStepOf (env : WorkflowEnv) : PipelineResult :=
  executeStep "Testing" (env.run "npm" ["test"] env.projectPath)

/-- The build step as `runCompleteWorkflow` executes it. -/
def buildStepOf (env : WorkflowEnv) : PipelineResult :=
  executeStep "Build" (env.run "npm" ["run", "build"] env.projectPath)

/-- The orchestrator's private `injectTemplate` wrapper: it always
passes an EMPTY variables record (`{}`) to
`TemplateManager.injectTemplate`. -/
def wfInjectStep (env : WorkflowEnv) (tid : String) : PipelineResult :=
  let r := (injectTemplate env.catalog env.fs tid env.projectPath ([] : VarMap)).1
  { step := "Template Injection: " ++ tid, success := r.success
    output := "Injected files: " ++ String.intercalate ", " r.injectedFiles
    error := String.intercalate ", " r.errors
    duration := env.injectDur tid }

/-- `WorkflowOrchestrator.runSecurityScan`: wraps the collaborator's
pass/fail and summary into one StepResult; a thrown scan becomes a
failed StepResult carrying the message. -/
def runSecurityScan (env : WorkflowEnv) : PipelineResult :=
  match env.scan with
  | .ok s =>
      { step := "Security Scan", success := s.passed
        output := "Vulnerabilities found: " ++ toString s.summary.total ++
          " (Critical: " ++ toString s.summary.critical ++
          ", High: " ++ toString s.summary.high ++ ")"
        error := if s.passed then "" else "Security vulnerabilities detected"
        duration := env.scanDur }
  | .error m =>
      { step := "Security Scan", success := false, output := ""
        error := m, duration := env.scanDur }

/-- The synthetic StepResult the catch block pushes. -/
def catchStep (env : WorkflowEnv) (msg : String) : PipelineResult :=
  { step := "Workflow Execution", success := false, output := ""
    error := msg, duration := env.catchDur }

/-- Result of a thrown workflow error: `success` stays false, the
synthetic trailing step is appended, `deployment` keeps whatever was
assigned before the throw. -/
def wfFail (env : WorkflowEnv) (steps : List PipelineResult) (msg : String)
    (dep : Option DeploymentResult) : WorkflowResult :=
  { success := false, steps := steps ++ [catchStep env msg]
    deployment := dep, duration := env.totalDur, timestamp := env.startedAt }

/-- `deployProject`: dispatch on the target; the `'none'` target falls
into the `default` case, which throws. -/
def deployProject (env : WorkflowEnv) (dep : DeploymentCfg) :
    Except String DeploymentResult :=
  match dep.target with
  | .netlify => .ok (env.deployOutcome .netlify)
  | .vercel => .ok (env.deployOutcome .vercel)
  | .githubPages => .ok (env.deployOutcome .githubPages)
  | .noTarget => .error ("Unsupported deployment target: " ++ targetName .noTarget)

/-- Deploy stage of `runCompleteWorkflow`: attempted only when the
deploy flag and `autoDeploy` are both set; `results.deployment` is
assigned before the failure throw, so a failed deployment is carried in
the failed result. -/
def wfDeployStage (env : WorkflowEnv) (cfg : WorkflowConfig)
    (steps : List PipelineResult) : WorkflowResult :=
  if cfg.steps.deploy && cfg.deployment.autoDeploy then
    match deployProject env cfg.deployment with
    | .error msg => wfFail env steps msg none
    | .ok d =>
        if d.success then
          { success := true, steps := steps, deployment := some d
            duration := env.totalDur, timestamp := env.startedAt }
        else wfFail env steps "Deployment failed" (some d)
  else
    { success := true, steps := steps, deployment := none
      duration := env.totalDur, timestamp := env.startedAt }

/-- Build stage: blocking. -/
def wfBuildStage (env : WorkflowEnv) (cfg : WorkflowConfig)
    (steps : List PipelineResult) : WorkflowResult :=
  if cfg.steps.build then
    if (buildStepOf env).success then
      wfDeployStage env cfg (steps ++ [buildStepOf env])
    else wfFail env (steps ++ [buildStepOf env]) "Build failed" none
  else wfDeployStage env cfg steps

/-- Security-scan stage: advisory (recorded, never halts). -/
def wfSecurityStage (env : WorkflowEnv) (cfg : WorkflowConfig)
    (steps : List PipelineResult) : WorkflowResult :=
  if cfg.steps.security then
    wfBuildStage env cfg (steps ++ [runSecurityScan env])
  else wfBuildStage env cfg steps

/-- Test stage: blocking. -/
def wfTestStage (env : WorkflowEnv) (cfg : WorkflowConfig)
    (steps : List PipelineResult) : WorkflowResult :=
  if cfg.steps.test then
    if (testStepOf env).success then
      wfSecurityStage env cfg (steps ++ [testStepOf env])
    else wfFail env (steps ++ [testStepOf env]) "Tests failed" none
  else wfSecurityStage env cfg steps

/-- Lint stage: advisory (recorded, never halts). -/
def wfLintStage (env : WorkflowEnv) (cfg : WorkflowConfig)
    (steps : List PipelineResult) : WorkflowResult :=
  if cfg.steps.lint then
    wfTestStage env cfg (steps ++ [lintStepOf env])
  else wfTestStage env cfg steps

/-- Template-injection stage: one StepResult per requested template id,
regardless of outcome (the wrapper never throws). -/
def wfInjectionStage (env : WorkflowEnv) (cfg : WorkflowConfig)
    (steps : List PipelineResult) : WorkflowResult :=
  wfLintStage env cfg (steps ++ cfg.features.injectTemplates.map (wfInjectStep env))

/-- Install stage: blocking. -/
def wfInstallStage (env : WorkflowEnv) (cfg : WorkflowConfig) : WorkflowResult :=
  if cfg.steps.install then
    if (installStepOf env).success then
      wfInjectionStage env cfg [installStepOf env]
    else wfFail env [installStepOf env] "Dependency installation failed" none
  else wfInjectionStage env cfg []

/-- `WorkflowOrchestrator.runCompleteWorkflow` (the spec's
`runWorkflow`): the mandatory prerequisite gate followed by the staged
pipeline; any throw lands in the single catch block. -/
def runCompleteWorkflow (env : WorkflowEnv) (cfg : WorkflowConfig) : WorkflowResult :=
  if (checkPrerequisites env).nodejs && (checkPrerequisites env).npm then
    wfInstallStage env cfg
  else wfFail env [] "Node.js and npm are required" none

theorem wfDeployStage_extends (env : WorkflowEnv) (cfg : WorkflowConfig)
    (s : List PipelineResult) : ∃ t, (wfDeployStage env cfg s).steps = s ++ t := by
  unfold wfDeployStage
  split
  · cases deployProject env cfg.deployment with
    | error msg => exact ⟨[catchStep env msg], rfl⟩
    | ok d =>
        by_cases hd : d.success = true
        · simp only [hd, if_true]
          exact ⟨[], by simp⟩
        · have hd' : d.success = false := by
            cases hx : d.success
            · rfl
            · exact absurd hx hd
          simp only [hd', Bool.false_eq_true, if_false]
          exact ⟨[catchStep env "Deployment failed"], rfl⟩
  · exact ⟨[], by simp⟩

theorem wfBuildStage_extends (env : WorkflowEnv) (cfg : WorkflowConfig)
    (s : List PipelineResult) : ∃ t, (wfBuildStage env cfg s).steps = s ++ t := by
  unfold wfBuildStage
  split
  · split
    · obtain ⟨t, ht⟩ := wfDeployStage_extends env cfg (s ++ [buildStepOf env])
      exact ⟨[buildStepOf env] ++ t, by rw [ht, List.append_assoc]⟩
    · exact ⟨[buildStepOf env, catchStep env "Build failed"],
        by simp [wfFail]⟩
  · exact wfDeployStage_extends env cfg s

theorem wfSecurityStage_extends (env : WorkflowEnv) (cfg : WorkflowConfig)
    (s : List PipelineResult) : ∃ t, (wfSecurityStage env cfg s).steps = s ++ t := by
  unfold wfSecurityStage
  split
  · obtain ⟨t, ht⟩ := wfBuildStage_extends env cfg (s ++ [runSecurityScan env])
    exact ⟨[runSecurityScan env] ++ t, by rw [ht, List.append_assoc]⟩
  · exact wfBuildStage_extends env cfg s

theorem wfTestStage_extends (env : WorkflowEnv) (cfg : WorkflowConfig)
    (s : List PipelineResult) : ∃ t, (wfTestStage env cfg s).steps = s ++ t := by
  unfold wfTestStage
  split
  · split
    · obtain ⟨t, ht⟩ := wfSecurityStage_extends env cfg (s ++ [testStepOf env])
      exact ⟨[testStepOf env] ++ t, by rw [ht, List.append_assoc]⟩
    · exact ⟨[testStepOf env, catchStep env "Tests failed"], by simp [wfFail]⟩
  · exact wfSecurityStage_extends env cfg s

theorem wfLintStage_extends (env : WorkflowEnv) (cfg : WorkflowConfig)
    (s : List PipelineResult) : ∃ t, (wfLintStage env cfg s).steps = s ++ t := by
  unfold wfLintStage
  split
  · obtain ⟨t, ht⟩ := wfTestStage_extends env cfg (s ++ [lintStepOf env])
    exact ⟨[lintStepOf env] ++ t, by rw [ht, List.append_assoc]⟩
  · exact wfTestStage_extends env cfg s

theorem wfLintStage_mem (env : WorkflowEnv) (cfg : WorkflowConfig)
    {s : List PipelineResult} {x : PipelineResult} (hx : x ∈ s) :
    x ∈ (wfLintStage env cfg s).steps := by
  obtain ⟨t, ht⟩ := wfLintStage_extends env cfg s
  rw [ht]
  exact List.mem_append_left t hx

theorem wfBuildStage_mem (env : WorkflowEnv) (cfg : WorkflowConfig)
    {s : List PipelineResult} {x : PipelineResult} (hx : x ∈ s) :
    x ∈ (wfBuildStage env cfg s).steps := by
  obtain ⟨t, ht⟩ := wfBuildStage_extends env cfg s
  rw [ht]
  exact List.mem_append_left t hx

theorem wfBuildStage_has_build (env : WorkflowEnv) (cfg : WorkflowConfig)
    (s : List PipelineResult) (hb : cfg.steps.build = true) :
    ∃ r ∈ (wfBuildStage env cfg s).steps, r.step = "Build" := by
  unfold wfBuildStage
  rw [if_pos hb]
  split
  · refine ⟨buildStepOf env, ?_, rfl⟩
    exact wfDeployStage_extends env cfg (s ++ [buildStepOf env]) |>.elim
      (fun t ht => by rw [ht]; exact List.mem_append_left t (by simp))
  · exact ⟨buildStepOf env, by simp [wfFail], rfl⟩

theorem wfReachTest (env : WorkflowEnv) (cfg : WorkflowConfig)
    (hpre : ((checkPrerequisites env).nodejs && (checkPrerequisites env).npm) = true)
    (hio : cfg.steps.install = true → (installStepOf env).success = true) :
    ∃ s, runCompleteWorkflow env cfg = wfTestStage env cfg s ∧
      (cfg.steps.install = true → installStepOf env ∈ s) ∧
      (cfg.steps.lint = true → lintStepOf env ∈ s) := by
  unfold runCompleteWorkflow
  rw [if_pos hpre]
  unfold wfInstallStage
  by_cases hi : cfg.steps.install = true
  · rw [if_pos hi, if_pos (hio hi)]
    unfold wfInjectionStage wfLintStage
    by_cases hl : cfg.steps.lint = true
    · rw [if_pos hl]
      refine ⟨_, rfl, fun _ => ?_, fun _ => ?_⟩ <;> simp
    · rw [if_neg hl]
      refine ⟨_, rfl, fun _ => by simp, fun h => absurd h hl⟩
  · rw [if_neg hi]
    unfold wfInjectionStage wfLintStage
    by_cases hl : cfg.steps.lint = true
    · rw [if_pos hl]
      refine ⟨_, rfl, fun h => absurd h hi, fun _ => by simp⟩
    · rw [if_neg hl]
      refine ⟨_, rfl, fun h => absurd h hi, fun h => absurd h hl⟩

theorem wfReachBuild (env : WorkflowEnv) (cfg : WorkflowConfig)
    (hpre : ((checkPrerequisites env).nodejs && (checkPrerequisites env).npm) = true)
    (hio : cfg.steps.install = true → (installStepOf env).success = true)
    (hto : cfg.steps.test = true → (testStepOf env).success = true) :
    ∃ s, runCompleteWorkflow env cfg = wfBuildStage env cfg s ∧
      (cfg.steps.security = true → runSecurityScan env ∈ s) := by
  obtain ⟨s, hrun, _, _⟩ := wfReachTest env cfg hpre hio
  rw [hrun]
  unfold wfTestStage
  by_cases ht : cfg.steps.test = true
  · rw [if_pos ht, if_pos (hto ht)]
    unfold wfSecurityStage
    by_cases hs : cfg.steps.security = true
    · rw [if_pos hs]
      exact ⟨_, rfl, fun _ => by simp⟩
    · rw [if_neg hs]
      exact ⟨_, rfl, fun h => absurd h hs⟩
  · rw [if_neg ht]
    unfold wfSecurityStage
    by_cases hs : cfg.steps.security = true
    · rw [if_pos hs]
      exact ⟨_, rfl, fun _ => by simp⟩
    · rw [if_neg hs]
      exact ⟨_, rfl, fun h => absurd h hs⟩

theorem wfTestStage_mem (env : WorkflowEnv) (cfg : WorkflowConfig)
    {s : List PipelineResult} {x : PipelineResult} (hx : x ∈ s) :
    x ∈ (wfTestStage env cfg s).steps := by
  obtain ⟨t, ht⟩ := wfTestStage_extends env cfg s
  rw [ht]
  exact List.mem_append_left t hx

theorem wfTestStage_has_test (env : WorkflowEnv) (cfg : WorkflowConfig)
    (s : List PipelineResult) (ht : cfg.steps.test = true) :
    testStepOf env ∈ (wfTestStage env cfg s).steps := by
  unfold wfTestStage
  rw [if_pos ht]
  split
  · obtain ⟨t, hts⟩ := wfSecurityStage_extends env cfg (s ++ [testStepOf env])
    rw [hts]
    exact List.mem_append_left t (by simp)
  · simp [wfFail]

/-- C3. In the configurable workflow, an install, test or build failure
halts immediately, yielding `succeeded=false` and a synthetic trailing
"Workflow Execution" StepResult carrying the causing message; a lint
failure is recorded but the test stage is still attempted; and with
`steps.security=true` and the scan collaborator reporting
`passed=false`, the scan's StepResult is recorded with
`succeeded=false` while the workflow still proceeds to the Build
stage. -/
theorem C3_blocking_and_advisory :
    ∀ (env : WorkflowEnv) (cfg : WorkflowConfig),
    (((checkPrerequisites env).nodejs && (checkPrerequisites env).npm) = true →
      cfg.steps.install = true →
      (installStepOf env).success = false →
      (runCompleteWorkflow env cfg).success = false ∧
      (runCompleteWorkflow env cfg).steps =
        [installStepOf env, catchStep env "Dependency installation failed"]) ∧
    (((checkPrerequisites env).nodejs && (checkPrerequisites env).npm) = true →
      (cfg.steps.install = true → (installStepOf env).success = true) →
      cfg.steps.test = true →
      (testStepOf env).success = false →
      (runCompleteWorkflow env cfg).success = false ∧
      ∃ pre, (runCompleteWorkflow env cfg).steps =
        pre ++ [testStepOf env, catchStep env "Tests failed"]) ∧
    (((checkPrerequisites env).nodejs && (checkPrerequisites env).npm) = true →
      (cfg.steps.install = true → (installStepOf env).success = true) →
      (cfg.steps.test = true → (testStepOf env).success = true) →
      cfg.steps.build = true →
      (buildStepOf env).success = false →
      (runCompleteWorkflow env cfg).success = false ∧
      ∃ pre, (runCompleteWorkflow env cfg).steps =
        pre ++ [buildStepOf env, catchStep env "Build failed"]) ∧
    (((checkPrerequisites env).nodejs && (checkPrerequisites env).npm) = true →
      (cfg.steps.install = true → (installStepOf env).success = true) →
      cfg.steps.lint = true →
      (lintStepOf env).success = false →
      cfg.steps.test = true →
      lintStepOf env ∈ (runCompleteWorkflow env cfg).steps ∧
      testStepOf env ∈ (runCompleteWorkflow env cfg).steps) ∧
    (((checkPrerequisites env).nodejs && (checkPrerequisites env).npm) = true →
      (cfg.steps.install = true → (installStepOf env).success = true) →
      (cfg.steps.test = true → (testStepOf env).success = true) →
      cfg.steps.security = true →
      ∀ sr : SecurityScanResult, env.scan = .ok sr → sr.passed = false →
      cfg.steps.build = true →
      runSecurityScan env ∈ (runCompleteWorkflow env cfg).steps ∧
      (runSecurityScan env).success = false ∧
      ∃ r ∈ (runCompleteWorkflow env cfg).steps, r.step = "Build") := by
  intro env cfg
  refine ⟨?_, ?_, ?_, ?_, ?_⟩
  · intro hpre hinst hfail
    unfold runCompleteWorkflow
    rw [if_pos hpre]
    unfold wfInstallStage
    rw [if_pos hinst, if_neg (by simp [hfail])]
    exact ⟨rfl, rfl⟩
  · intro hpre hio htst hfail
    obtain ⟨s, hrun, _, _⟩ := wfReachTest env cfg hpre hio
    rw [hrun]
    unfold wfTestStage
    rw [if_pos htst, if_neg (by simp [hfail])]
    exact ⟨rfl, s, by simp [wfFail]⟩
  · intro hpre hio hto hbuild hfail
    obtain ⟨s, hrun, _⟩ := wfReachBuild env cfg hpre hio hto
    rw [hrun]
    unfold wfBuildStage
    rw [if_pos hbuild, if_neg (by simp [hfail])]
    exact ⟨rfl, s, by simp [wfFail]⟩
  · intro hpre hio hlint _ htest
    obtain ⟨s, hrun, _, hlmem⟩ := wfReachTest env cfg hpre hio
    rw [hrun]
    exact ⟨wfTestStage_mem env cfg (hlmem hlint),
      wfTestStage_has_test env cfg s htest⟩
  · intro hpre hio hto hsec sr hscan hp hbuild
    obtain ⟨s, hrun, hsmem⟩ := wfReachBuild env cfg hpre hio hto
    rw [hrun]
    refine ⟨wfBuildStage_mem env cfg (hsmem hsec), ?_,
      wfBuildStage_has_build env cfg s hbuild⟩
    simp [runSecurityScan, hscan, hp]

/-- File-system oracle used by the workflow scenario environments. -/
def fsWf : FSModel :=
  { pathExists := fun _ => false, readFile := fun _ => ""
    readPackageDeps := fun _ => none }

/-- Scenario environment: every probe and step succeeds except
`npm install`, which exits 1. -/
def envC3 : WorkflowEnv :=
  { run := fun cmd args _ =>
      if cmd = "npm" ∧ args = ["install"] then ⟨.exited 1 "" "install blew up", 2⟩
      else ⟨.exited 0 "ok" "", 1⟩
    cwd := "/", projectPath := "/p"
    scan := .ok ⟨true, ⟨0, 0, 0, 0, 0⟩⟩, scanDur := 1
    catalog := fun _ => none, fs := fsWf
    injectDur := fun _ => 1, catchDur := 2, totalDur := 10, startedAt := 5
    deployOutcome := fun _ => ⟨false, none, none, "", none⟩ }

/-- Scenario config: everything but deploy enabled, no templates. -/
def cfgC3 : WorkflowConfig :=
  { steps := ⟨true, true, true, true, true, false⟩
    deployment := ⟨.noTarget, false, none⟩
    features := ⟨[], []⟩ }

theorem C3_blocking_and_advisory_witness :
    (runCompleteWorkflow envC3 cfgC3).success = false ∧
    (runCompleteWorkflow envC3 cfgC3).steps =
      [installStepOf envC3, catchStep envC3 "Dependency installation failed"] :=
  (C3_blocking_and_advisory envC3 cfgC3).1 (by decide) rfl (by decide)

/-- Canonical suffix of step names from the deploy stage on. -/
def tailDeploy : List String := ["Workflow Execution"]

/-- Canonical suffix from the build stage on. -/
def tailBuild : List String := "Build" :: tailDeploy

/-- Canonical suffix from the security stage on. -/
def tailSecurity : List String := "Security Scan" :: tailBuild

/-- Canonical suffix from the test stage on. -/
def tailTest : List String := "Testing" :: tailSecurity

/-- Canonical suffix from the lint stage on. -/
def tailLint : List String := "Linting" :: tailTest

/-- Canonical suffix from the injection stage on. -/
def tailInjection (cfg : WorkflowConfig) : List String :=
  cfg.features.injectTemplates.map (fun tid => "Template Injection: " ++ tid) ++ tailLint

/-- The full canonical order of step names a workflow run can produce. -/
def canonicalNames (cfg : WorkflowConfig) : List String :=
  "Dependency Installation" :: tailInjection cfg

theorem runSecurityScan_step (env : WorkflowEnv) :
    (runSecurityScan env).step = "Security Scan" := by
  unfold runSecurityScan
  cases env.scan <;> rfl

theorem runSecurityScan_dur (env : WorkflowEnv) :
    (runSecurityScan env).duration = env.scanDur := by
  unfold runSecurityScan
  cases env.scan <;> rfl

theorem wfDeployStage_names (env : WorkflowEnv) (cfg : WorkflowConfig)
    (s : List PipelineResult) :
    ∃ t, (wfDeployStage env cfg s).steps.map (fun r => r.step) =
      s.map (fun r => r.step) ++ t ∧ List.Sublist t tailDeploy := by
  unfold wfDeployStage
  split
  · cases deployProject env cfg.deployment with
    | error msg =>
        exact ⟨["Workflow Execution"], by simp [wfFail, catchStep],
          List.Sublist.refl _⟩
    | ok d =>
        dsimp only
        by_cases hd : d.success = true
        · rw [if_pos hd]
          exact ⟨[], by simp, List.nil_sublist _⟩
        · rw [if_neg hd]
          exact ⟨["Workflow Execution"], by simp [wfFail, catchStep],
            List.Sublist.refl _⟩
  · exact ⟨[], by simp, List.nil_sublist _⟩

theorem wfBuildStage_names (env : WorkflowEnv) (cfg : WorkflowConfig)
    (s : List PipelineResult) :
    ∃ t, (wfBuildStage env cfg s).steps.map (fun r => r.step) =
      s.map (fun r => r.step) ++ t ∧ List.Sublist t tailBuild := by
  unfold wfBuildStage
  split
  · split
    · obtain ⟨t, ht, hs⟩ := wfDeployStage_names env cfg (s ++ [buildStepOf env])
      refine ⟨"Build" :: t, ?_, List.Sublist.cons₂ _ hs⟩
      rw [ht]
      simp [buildStepOf, executeStep]
    · refine ⟨["Build", "Workflow Execution"], ?_, List.Sublist.refl _⟩
      simp [wfFail, catchStep, buildStepOf, executeStep]
  · obtain ⟨t, ht, hs⟩ := wfDeployStage_names env cfg s
    exact ⟨t, ht, List.Sublist.cons _ hs⟩

theorem wfSecurityStage_names (env : WorkflowEnv) (cfg : WorkflowConfig)
    (s : List PipelineResult) :
    ∃ t, (wfSecurityStage env cfg s).steps.map (fun r => r.step) =
      s.map (fun r => r.step) ++ t ∧ List.Sublist t tailSecurity := by
  unfold wfSecurityStage
  split
  · obtain ⟨t, ht, hs⟩ := wfBuildStage_names env cfg (s ++ [runSecurityScan env])
    refine ⟨"Security Scan" :: t, ?_, List.Sublist.cons₂ _ hs⟩
    rw [ht]
    simp [runSecurityScan_step]
  · obtain ⟨t, ht, hs⟩ := wfBuildStage_names env cfg s
    exact ⟨t, ht, List.Sublist.cons _ hs⟩

theorem wfTestStage_names (env : WorkflowEnv) (cfg : WorkflowConfig)
    (s : List PipelineResult) :
    ∃ t, (wfTestStage env cfg s).steps.map (fun r => r.step) =
      s.map (fun r => r.step) ++ t ∧ List.Sublist t tailTest := by
  unfold wfTestStage
  split
  · split
    · obtain ⟨t, ht, hs⟩ := wfSecurityStage_names env cfg (s ++ [testStepOf env])
      refine ⟨"Testing" :: t, ?_, List.Sublist.cons₂ _ hs⟩
      rw [ht]
      simp [testStepOf, executeStep]
    · refine ⟨["Testing", "Workflow Execution"], ?_, ?_⟩
      · simp [wfFail, catchStep, testStepOf, executeStep]
      · exact List.Sublist.cons₂ _ (by
          exact List.Sublist.cons _ (List.Sublist.cons _ (List.Sublist.refl _)))
  · obtain ⟨t, ht, hs⟩ := wfSecurityStage_names env cfg s
    exact ⟨t, ht, List.Sublist.cons _ hs⟩

theorem wfLintStage_names (env : WorkflowEnv) (cfg : WorkflowConfig)
    (s : List PipelineResult) :
    ∃ t, (wfLintStage env cfg s).steps.map (fun r => r.step) =
      s.map (fun r => r.step) ++ t ∧ List.Sublist t tailLint := by
  unfold wfLintStage
  split
  · obtain ⟨t, ht, hs⟩ := wfTestStage_names env cfg (s ++ [lintStepOf env])
    refine ⟨"Linting" :: t, ?_, List.Sublist.cons₂ _ hs⟩
    rw [ht]
    simp [lintStepOf, executeStep]
  · obtain ⟨t, ht, hs⟩ := wfTestStage_names env cfg s
    exact ⟨t, ht, List.Sublist.cons _ hs⟩

theorem map_wfInjectStep_names (env : WorkflowEnv) (tids : List String) :
    (tids.map (wfInjectStep env)).map (fun r => r.step) =
      tids.map (fun tid => "Template Injection: " ++ tid) := by
  induction tids with
  | nil => rfl
  | cons a l ih => simp [wfInjectStep, ih]

theorem wfInjectionStage_names (env : WorkflowEnv) (cfg : WorkflowConfig)
    (s : List PipelineResult) :
    ∃ t, (wfInjectionStage env cfg s).steps.map (fun r => r.step) =
      s.map (fun r => r.step) ++ t ∧ List.Sublist t (tailInjection cfg) := by
  unfold wfInjectionStage
  obtain ⟨t, ht, hs⟩ := wfLintStage_names env cfg
    (s ++ cfg.features.injectTemplates.map (wfInjectStep env))
  refine ⟨cfg.features.injectTemplates.map (fun tid => "Template Injection: " ++ tid) ++ t,
    ?_, List.Sublist.append_left hs _⟩
  rw [ht, List.map_append, map_wfInjectStep_names, List.append_assoc]

theorem we_sublist_tailInjection (cfg : WorkflowConfig) :
    List.Sublist ["Workflow Execution"] (tailInjection cfg) := by
  unfold tailInjection
  refine List.Sublist.trans ?_ (List.sublist_append_right _ _)
  unfold tailLint tailTest tailSecurity tailBuild tailDeploy
  exact List.Sublist.cons _ (List.Sublist.cons _ (List.Sublist.cons _
    (List.Sublist.cons _ (List.Sublist.refl _))))

/-- Number of enabled step-producing stage flags. -/
def enabledStepCount (cfg : WorkflowConfig) : Nat :=
  cfg.steps.install.toNat + cfg.steps.lint.toNat + cfg.steps.test.toNat +
    cfg.steps.security.toNat + cfg.steps.build.toNat

theorem wfDeployStage_len (env : WorkflowEnv) (cfg : WorkflowConfig)
    (s : List PipelineResult) :
    (wfDeployStage env cfg s).steps.length ≤ s.length + 1 := by
  unfold wfDeployStage
  split
  · cases deployProject env cfg.deployment with
    | error msg => simp [wfFail]
    | ok d =>
        dsimp only
        by_cases hd : d.success = true
        · rw [if_pos hd]
          simp
        · rw [if_neg hd]
          simp [wfFail]
  · simp

theorem bool_toNat_of_not (b : Bool) (h : ¬ b = true) : b.toNat = 0 := by
  cases hb : b
  · rfl
  · exact absurd hb h

theorem wfBuildStage_len (env : WorkflowEnv) (cfg : WorkflowConfig)
    (s : List PipelineResult) :
    (wfBuildStage env cfg s).steps.length ≤
      s.length + cfg.steps.build.toNat + 1 := by
  unfold wfBuildStage
  split
  · next hb =>
    have hb1 : cfg.steps.build.toNat = 1 := by rw [hb]; rfl
    rw [hb1]
    split
    · have h := wfDeployStage_len env cfg (s ++ [buildStepOf env])
      simp at h
      omega
    · simp [wfFail]
  · next hb =>
    rw [bool_toNat_of_not _ hb]
    have h := wfDeployStage_len env cfg s
    omega

theorem wfSecurityStage_len (env : WorkflowEnv) (cfg : WorkflowConfig)
    (s : List PipelineResult) :
    (wfSecurityStage env cfg s).steps.length ≤
      s.length + cfg.steps.security.toNat + cfg.steps.build.toNat + 1 := by
  unfold wfSecurityStage
  split
  · next hb =>
    have hb1 : cfg.steps.security.toNat = 1 := by rw [hb]; rfl
    rw [hb1]
    have h := wfBuildStage_len env cfg (s ++ [runSecurityScan env])
    simp at h
    omega
  · next hb =>
    rw [bool_toNat_of_not _ hb]
    have h := wfBuildStage_len env cfg s
    omega

theorem wfTestStage_len (env : WorkflowEnv) (cfg : WorkflowConfig)
    (s : List PipelineResult) :
    (wfTestStage env cfg s).steps.length ≤
      s.length + cfg.steps.test.toNat + cfg.steps.security.toNat +
        cfg.steps.build.toNat + 1 := by
  unfold wfTestStage
  split
  · next hb =>
    have hb1 : cfg.steps.test.toNat = 1 := by rw [hb]; rfl
    rw [hb1]
    split
    · have h := wfSecurityStage_len env cfg (s ++ [testStepOf env])
      simp at h
      omega
    · simp [wfFail]
      omega
  · next hb =>
    rw [bool_toNat_of_not _ hb]
    have h := wfSecurityStage_len env cfg s
    omega

theorem wfLintStage_len (env : WorkflowEnv) (cfg : WorkflowConfig)
    (s : List PipelineResult) :
    (wfLintStage env cfg s).steps.length ≤
      s.length + cfg.steps.lint.toNat + cfg.steps.test.toNat +
        cfg.steps.security.toNat + cfg.steps.build.toNat + 1 := by
  unfold wfLintStage
  split
  · next hb =>
    have hb1 : cfg.steps.lint.toNat = 1 := by rw [hb]; rfl
    rw [hb1]
    have h := wfTestStage_len env cfg (s ++ [lintStepOf env])
    simp at h
    omega
  · next hb =>
    rw [bool_toNat_of_not _ hb]
    have h := wfTestStage_len env cfg s
    omega

theorem wfInjectionStage_len (env : WorkflowEnv) (cfg : WorkflowConfig)
    (s : List PipelineResult) :
    (wfInjectionStage env cfg s).steps.length ≤
      s.length + cfg.features.injectTemplates.length + cfg.steps.lint.toNat +
        cfg.steps.test.toNat + cfg.steps.security.toNat +
        cfg.steps.build.toNat + 1 := by
  unfold wfInjectionStage
  have h := wfLintStage_len env cfg
    (s ++ cfg.features.injectTemplates.map (wfInjectStep env))
  simp at h
  omega

theorem wfInstallStage_len (env : WorkflowEnv) (cfg : WorkflowConfig) :
    (wfInstallStage env cfg).steps.length ≤
      enabledStepCount cfg + cfg.features.injectTemplates.length + 1 := by
  unfold wfInstallStage enabledStepCount
  split
  · next hb =>
    have hb1 : cfg.steps.install.toNat = 1 := by rw [hb]; rfl
    rw [hb1]
    split
    · have h := wfInjectionStage_len env cfg [installStepOf env]
      simp at h
      omega
    · simp [wfFail]
      omega
  · next hb =>
    rw [bool_toNat_of_not _ hb]
    have h := wfInjectionStage_len env cfg []
    simp at h
    omega

theorem wfInstallStage_names (env : WorkflowEnv) (cfg : WorkflowConfig) :
    List.Sublist ((wfInstallStage env cfg).steps.map (fun r => r.step))
      (canonicalNames cfg) := by
  unfold wfInstallStage
  split
  · split
    · obtain ⟨t, ht, hs⟩ := wfInjectionStage_names env cfg [installStepOf env]
      rw [ht]
      exact List.Sublist.cons₂ _ hs
    · exact List.Sublist.cons₂ _ (we_sublist_tailInjection cfg)
  · obtain ⟨t, ht, hs⟩ := wfInjectionStage_names env cfg []
    rw [ht]
    exact List.Sublist.cons _ hs

/-- C6 amended.  The step names of every workflow result appear as a
sublist of the canonical execution order (install, then one injection
entry per requested template in request order, then lint, test,
security scan, build, then the synthetic failure entry), so steps are
never reordered; and the list's length never exceeds the number of
enabled step-producing stages plus one entry per requested template
PLUS ONE for the synthetic "Workflow Execution" failure entry. -/
theorem C6_step_order_and_bound :
    ∀ (env : WorkflowEnv) (cfg : WorkflowConfig),
      List.Sublist ((runCompleteWorkflow env cfg).steps.map (fun r => r.step))
        (canonicalNames cfg) ∧
      (runCompleteWorkflow env cfg).steps.length ≤
        enabledStepCount cfg + cfg.features.injectTemplates.length + 1 := by
  intro env cfg
  unfold runCompleteWorkflow
  split
  · exact ⟨wfInstallStage_names env cfg, wfInstallStage_len env cfg⟩
  · constructor
    · exact List.Sublist.cons _ (we_sublist_tailInjection cfg)
    · simp [wfFail]

/-- Environment where the mandatory probes fail (node cannot even be
spawned). -/
def envNoNode : WorkflowEnv :=
  { run := fun _ _ _ => ⟨.launchFailure "spawn node ENOENT", 1⟩
    cwd := "/", projectPath := "/p", scan := .error "scan unavailable"
    scanDur := 0, catalog := fun _ => none, fs := fsWf
    injectDur := fun _ => 0, catchDur := 4, totalDur := 9, startedAt := 0
    deployOutcome := fun _ => ⟨false, none, none, "", none⟩ }

/-- Config with every stage flag false and nothing requested. -/
def cfgAllOff : WorkflowConfig :=
  { steps := ⟨false, false, false, false, false, false⟩
    deployment := ⟨.noTarget, false, none⟩
    features := ⟨[], []⟩ }

/-- C6 counterexample.  With all stage flags false, no templates, and
the prerequisite probes failing, the result still contains the one
synthetic "Workflow Execution" entry: 1 step > 0 = enabled stages +
requested templates, so the claimed bound (without the +1) is false. -/
theorem C6_counterexample :
    enabledStepCount cfgAllOff + cfgAllOff.features.injectTemplates.length = 0 ∧
    (runCompleteWorkflow envNoNode cfgAllOff).steps.length = 1 ∧
    ¬ ((runCompleteWorkflow envNoNode cfgAllOff).steps.length ≤
        enabledStepCount cfgAllOff + cfgAllOff.features.injectTemplates.length) := by
  refine ⟨rfl, rfl, by decide⟩

/-- Environment where every external command succeeds. -/
def envAllOk : WorkflowEnv :=
  { run := fun _ _ _ => ⟨.exited 0 "v1.0.0" "", 1⟩
    cwd := "/", projectPath := "/p", scan := .ok ⟨true, ⟨0, 0, 0, 0, 0⟩⟩
    scanDur := 0, catalog := fun _ => none, fs := fsWf
    injectDur := fun _ => 0, catchDur := 4, totalDur := 9, startedAt := 0
    deployOutcome := fun _ => ⟨true, some "https://x.example", none, "", some 1⟩ }

/-- Config with every stage flag false but one template requested. -/
def cfgTemplOnly : WorkflowConfig :=
  { steps := ⟨false, false, false, false, false, false⟩
    deployment := ⟨.noTarget, false, none⟩
    features := ⟨["t1"], []⟩ }

/-- C7 counterexample.  All six stage flags are false and the
prerequisites pass, yet — because template injection is driven by
`features.injectTemplates`, not by any stage flag — the returned steps
list is NOT empty: it holds the injection entry for the requested
template. -/
theorem C7_counterexample :
    (cfgTemplOnly.steps.install = false ∧ cfgTemplOnly.steps.lint = false ∧
     cfgTemplOnly.steps.test = false ∧ cfgTemplOnly.steps.security = false ∧
     cfgTemplOnly.steps.build = false ∧ cfgTemplOnly.steps.deploy = false) ∧
    ((checkPrerequisites envAllOk).nodejs = true ∧
     (checkPrerequisites envAllOk).npm = true) ∧
    (runCompleteWorkflow envAllOk cfgTemplOnly).steps ≠ [] ∧
    (runCompleteWorkflow envAllOk cfgTemplOnly).steps.length = 1 := by
  exact ⟨⟨rfl, rfl, rfl, rfl, rfl, rfl⟩, ⟨rfl, rfl⟩, by decide, rfl⟩

/-- C7 amended.  For a config whose six stage flags are all false AND
whose template request list is empty, `runCompleteWorkflow` performs
only the prerequisite check: the step list is empty on prerequisite
success and `succeeded` equals the prerequisite outcome; and whenever
the mandatory node/npm probes fail, any workflow fails immediately with
the single synthetic prerequisite StepResult and attempts nothing
else. -/
theorem C7_empty_workflow :
    (∀ (env : WorkflowEnv) (cfg : WorkflowConfig),
      cfg.steps.install = false → cfg.steps.lint = false →
      cfg.steps.test = false → cfg.steps.security = false →
      cfg.steps.build = false → cfg.steps.deploy = false →
      cfg.features.injectTemplates = [] →
      (runCompleteWorkflow env cfg).success =
        ((checkPrerequisites env).nodejs && (checkPrerequisites env).npm) ∧
      (((checkPrerequisites env).nodejs && (checkPrerequisites env).npm) = true →
        (runCompleteWorkflow env cfg).steps = [])) ∧
    (∀ (env : WorkflowEnv) (cfg : WorkflowConfig),
      ((checkPrerequisites env).nodejs && (checkPrerequisites env).npm) = false →
      (runCompleteWorkflow env cfg).success = false ∧
      (runCompleteWorkflow env cfg).steps =
        [catchStep env "Node.js and npm are required"]) := by
  constructor
  · intro env cfg h1 h2 h3 h4 h5 h6 h7
    by_cases hpre :
        ((checkPrerequisites env).nodejs && (checkPrerequisites env).npm) = true
    · have hrun : runCompleteWorkflow env cfg =
          { success := true, steps := [], deployment := none
            duration := env.totalDur, timestamp := env.startedAt } := by
        unfold runCompleteWorkflow wfInstallStage wfInjectionStage wfLintStage
          wfTestStage wfSecurityStage wfBuildStage wfDeployStage
        rw [if_pos hpre]
        simp [h1, h2, h3, h4, h5, h6, h7]
      rw [hrun, hpre]
      exact ⟨rfl, fun _ => rfl⟩
    · have hf : ((checkPrerequisites env).nodejs && (checkPrerequisites env).npm)
          = false := by
        cases hx : ((checkPrerequisites env).nodejs && (checkPrerequisites env).npm)
        · rfl
        · exact absurd hx hpre
      have hrun : runCompleteWorkflow env cfg =
          wfFail env [] "Node.js and npm are required" none := by
        unfold runCompleteWorkflow
        rw [if_neg (by simp [hf])]
      rw [hrun, hf]
      exact ⟨rfl, fun h => absurd h (by simp [hf])⟩
  · intro env cfg h
    have hrun : runCompleteWorkflow env cfg =
        wfFail env [] "Node.js and npm are required" none := by
      unfold runCompleteWorkflow
      rw [if_neg (by simp [h])]
    rw [hrun]
    exact ⟨rfl, rfl⟩

theorem C7_empty_workflow_witness :
    (runCompleteWorkflow envAllOk cfgAllOff).success =
      ((checkPrerequisites envAllOk).nodejs && (checkPrerequisites envAllOk).npm) ∧
    (((checkPrerequisites envAllOk).nodejs && (checkPrerequisites envAllOk).npm) = true →
      (runCompleteWorkflow envAllOk cfgAllOff).steps = []) :=
  C7_empty_workflow.1 envAllOk cfgAllOff rfl rfl rfl rfl rfl rfl rfl

/-- C10. The orchestrator's injection wrapper always passes an empty
variables record to `TemplateManager.injectTemplate`; hence, whenever a
requested template declares at least one required variable and the
workflow reaches the injection stage, the corresponding
injection StepResult has `succeeded=false` and its
error text is the joined error list, which includes the
missing-required-variable message — regardless of the rest of the
config. -/
theorem C10_injection_empty_variables :
    ∀ (env : WorkflowEnv) (cfg : WorkflowConfig) (tid : String)
      (t : Template) (v : TemplateVariable),
    ((checkPrerequisites env).nodejs && (checkPrerequisites env).npm) = true →
    (cfg.steps.install = true → (installStepOf env).success = true) →
    tid ∈ cfg.features.injectTemplates →
    env.catalog tid = some t →
    v ∈ t.tvars →
    v.required = true →
    wfInjectStep env tid ∈ (runCompleteWorkflow env cfg).steps ∧
    (wfInjectStep env tid).success = false ∧
    missingMsg v.name ∈
      (injectTemplate env.catalog env.fs tid env.projectPath ([] : VarMap)).1.errors ∧
    (wfInjectStep env tid).error = String.intercalate ", "
      (injectTemplate env.catalog env.fs tid env.projectPath ([] : VarMap)).1.errors := by
  intro env cfg tid t v hpre hio htid hcat hv hreq
  have hjt : jtruthy (vlookup ([] : VarMap) v.name) = false := rfl
  have hmv : missingMsg v.name ∈ perVarErrors ([] : VarMap) v := by
    simp [perVarErrors, hreq, hjt]
  have hcm : missingMsg v.name ∈ collectErrors ([] : VarMap) t.tvars :=
    collectErrors_mem ([] : VarMap) t.tvars hv hmv
  have hne : collectErrors ([] : VarMap) t.tvars ≠ [] := List.ne_nil_of_mem hcm
  have hEmp : (collectErrors ([] : VarMap) t.tvars).isEmpty = false := by
    cases h : collectErrors ([] : VarMap) t.tvars with
    | nil => exact absurd h hne
    | cons a l => rfl
  have hinj : (injectTemplate env.catalog env.fs tid env.projectPath ([] : VarMap)).1 =
      { success := false, injectedFiles := [], installedDependencies := []
        errors := collectErrors ([] : VarMap) t.tvars } := by
    simp [injectTemplate, hcat, validateVariables, hEmp]
  refine ⟨?_, ?_, ?_, rfl⟩
  · unfold runCompleteWorkflow
    rw [if_pos hpre]
    unfold wfInstallStage
    by_cases hi : cfg.steps.install = true
    · rw [if_pos hi, if_pos (hio hi)]
      unfold wfInjectionStage
      exact wfLintStage_mem env cfg
        (List.mem_append_right _ (List.mem_map_of_mem _ htid))
    · rw [if_neg hi]
      unfold wfInjectionStage
      exact wfLintStage_mem env cfg
        (List.mem_append_right _ (List.mem_map_of_mem _ htid))
  · simp [wfInjectStep, hinj]
  · rw [hinj]
    exact hcm

/-- C10 witness template: declares one required variable. -/
def tmplC10 : Template :=
  { id := "auth", name := "Auth", description := ""
    ttype := "feature", category := "auth", files := []
    tvars := [{ name := "userModel", description := "", vtype := .string
                required := true, defaultValue := none, options := none }]
    dependencies := [], installScripts := none, tags := [] }

/-- C10 witness environment: all probes succeed; the catalog holds only
`tmplC10`. -/
def envC10 : WorkflowEnv :=
  { run := fun _ _ _ => ⟨.exited 0 "ok" "", 1⟩
    cwd := "/", projectPath := "/p", scan := .ok ⟨true, ⟨0, 0, 0, 0, 0⟩⟩
    scanDur := 0, catalog := fun tid => if tid = "auth" then some tmplC10 else none
    fs := fsWf, injectDur := fun _ => 0, catchDur := 1, totalDur := 2, startedAt := 0
    deployOutcome := fun _ => ⟨true, none, none, "", none⟩ }

/-- C10 witness config: only the template request is set. -/
def cfgC10 : WorkflowConfig :=
  { steps := ⟨false, false, false, false, false, false⟩
    deployment := ⟨.noTarget, false, none⟩
    features := ⟨["auth"], []⟩ }

theorem C10_injection_empty_variables_witness :
    wfInjectStep envC10 "auth" ∈ (runCompleteWorkflow envC10 cfgC10).steps ∧
    (wfInjectStep envC10 "auth").success = false ∧
    missingMsg "userModel" ∈
      (injectTemplate envC10.catalog envC10.fs "auth" envC10.projectPath
        ([] : VarMap)).1.errors ∧
    (wfInjectStep envC10 "auth").error = String.intercalate ", "
      (injectTemplate envC10.catalog envC10.fs "auth" envC10.projectPath
        ([] : VarMap)).1.errors :=
  C10_injection_empty_variables envC10 cfgC10 "auth" tmplC10
    { name := "userModel", description := "", vtype := .string
      required := true, defaultValue := none, options := none }
    (by decide) (fun h => by cases h) (by decide) rfl (by decide) rfl
